import Mathlib

/-!
SpotMAX core pipeline: shallow embedding and verification

This file embeds, in Lean 4, the parts of the SpotMAX spot-detection and
quantification pipeline (`spotmax/transformations.py` and `spotmax/pipe.py`)
needed to settle the specification claims about:

* the slice-pair construction for embedding local masks into a global volume
  (`get_slices_local_into_global_3D_arr`);
* the spheroid mask builder (`get_local_spheroid_mask`) and its uses as
  detection footprint and feature-aggregation volume;
* the bounding-box expansion tolerance (`get_expand_obj_delta_tolerance`);
* coordinate reshaping (`reshape_spots_coords_to_3D`);
* background normalisation (`normalise_img`) and its zero-divisor policies;
* the per-spot drop logic of `_compute_obj_spots_features`;
* the two fixed-point filtering loops (the GOP loop in
  `spots_calc_features_and_filter` and the drop-peaks-too-close loop in
  `spotfit`).

Machine floats of the source are modelled as rationals (`ℚ`); numpy arrays as
shape data plus index-valued functions or lists; Python exceptions as
`Except PyErr`.  Where the source delegates to repository modules that are not
part of the provided sources (`spotmax.features`, `spotmax.filters`,
`spotmax.core`), the needed behaviour is modelled from the specification and
the corresponding definitions are marked `Modelled from the spec:`.
-/

/-- Python exceptions raised by the modelled code paths. -/
inductive PyErr where
  | typeError : PyErr
  | floatingPointError : PyErr
  | nameError : PyErr
deriving DecidableEq, Repr

/-! Section: Python slice semantics (step 1 slices, as used by numpy basic indexing)

A slice endpoint is either `None` or an integer; a negative integer counts
from the end of the axis.  `pyIdx` normalises an endpoint against an axis of
length `n` exactly as CPython's `slice.indices` does for step 1. -/

/-- Normalise one slice endpoint against an axis of length `n`:
negative values count from the end, and the result is clamped to `[0, n]`. -/
def pyIdx (n : ℕ) (v : ℤ) : ℤ :=
  if v < 0 then max 0 ((n : ℤ) + v) else min v (n : ℤ)

/-- Number of elements selected by the step-1 slice `start:stop` on an axis of
length `n` (`none` meaning an omitted endpoint). -/
def pySliceLen (n : ℕ) (start stop : Option ℤ) : ℤ :=
  let s := match start with | none => (0 : ℤ) | some v => pyIdx n v
  let e := match stop with | none => (n : ℤ) | some v => pyIdx n v
  max 0 (e - s)

/-! Section: `transformations.get_slices_local_into_global_3D_arr`

One axis of the source loop
`for _c, _d, _D in zip(zyx_center, local_shape, global_shape)`:
`_r = int(_d/2); _min = _c - _r; _max = _min + _d`, then clip `_min` at `0`
(recording `abs(_min)` as the crop start) and `_max` at `_D` (recording
`_D - _max` as the crop stop).  Returns the global slice `(_min, _max)` and
the crop slice `(_min_crop, _max_crop)`. -/

/-- One axis of `get_slices_local_into_global_3D_arr`: center `c`, local-mask
extent `d`, global extent `D`. -/
def sliceAxis (c : ℤ) (d D : ℕ) : (ℤ × ℤ) × (Option ℤ × Option ℤ) :=
  let min0 : ℤ := c - (d / 2 : ℕ)
  let max0 : ℤ := min0 + d
  let minPair : Option ℤ × ℤ :=
    if min0 < 0 then (some (-min0), 0) else (none, min0)
  let maxPair : Option ℤ × ℤ :=
    if max0 > (D : ℤ) then (some ((D : ℤ) - max0), (D : ℤ)) else (none, max0)
  ((minPair.2, maxPair.2), (minPair.1, maxPair.1))

/-- A 2-dimensional shape is implicitly promoted to depth 1
(`if len(shape) == 2: shape = (1, *shape)`). -/
def promote_shape_to_3D (s : List ℕ) : List ℕ :=
  if s.length = 2 then 1 :: s else s

/-- Model of `transformations.get_slices_local_into_global_3D_arr`: per axis, the global
slice (as a pair of integer endpoints) and the crop slice (as a pair of
optional endpoints, negative stops counting from the end). -/
def get_slices_local_into_global_3D_arr
    (zyx_center : List ℤ) (global_shape local_shape : List ℕ) :
    List ((ℤ × ℤ) × (Option ℤ × Option ℤ)) :=
  let gs := promote_shape_to_3D global_shape
  let ls := promote_shape_to_3D local_shape
  (zyx_center.zip (ls.zip gs)).map (fun p => sliceAxis p.1 p.2.1 p.2.2)

/-- The property claimed of each returned axis: the global slice and the crop
slice select segments of the same length (so the two cropped views have the
same shape on that axis).  `d` is the local extent, `D` the global extent. -/
def axis_shapes_match (r : (ℤ × ℤ) × (Option ℤ × Option ℤ)) (d D : ℕ) : Prop :=
  pySliceLen D (some r.1.1) (some r.1.2) = pySliceLen d r.2.1 r.2.2

instance (r : (ℤ × ℤ) × (Option ℤ × Option ℤ)) (d D : ℕ) :
    Decidable (axis_shapes_match r d D) := by
  unfold axis_shapes_match; infer_instance

/-! Section: `transformations.get_local_spheroid_mask`

Source: `wh = int(np.ceil(yr)); d = int(np.ceil(zr))`; an integer offset grid
`z, y, x = np.ogrid[-d:d+1, -wh:wh+1, -wh:wh+1]`; the spheroid equation
`(x**2 + y**2)/yr**2 + z**2/zr**2 <= 1` when `zr > 0`, else the 2-D ellipse
`(x**2 + y**2)/yr**2 <= 1`; finally, when `d == 1` the mask is collapsed to a
single z-slice by `mask.max(axis=0)[np.newaxis]`.  Note the third radius `xr`
is unpacked but never used by the source.  Radii are assumed nonnegative
(shape extents are naturals via `Int.toNat`). -/

/-- A boolean 3-D mask: its shape and an index-valued entry function
(entries outside the index range are irrelevant). -/
structure Mask3D where
  d0 : ℕ
  d1 : ℕ
  d2 : ℕ
  val : ℤ → ℤ → ℤ → Bool

/-- The spheroid equation of the source evaluated at an integer offset
`(z, y, x)` from the grid center: `(x²+y²)/yr² + z²/zr² ≤ 1` when `zr > 0`,
else the 2-D ellipse `(x²+y²)/yr² ≤ 1`. -/
def spheroid_formula (zr yr : ℚ) (z y x : ℤ) : Bool :=
  if 0 < zr then
    decide (((x : ℚ) ^ 2 + (y : ℚ) ^ 2) / yr ^ 2 + (z : ℚ) ^ 2 / zr ^ 2 ≤ 1)
  else
    decide (((x : ℚ) ^ 2 + (y : ℚ) ^ 2) / yr ^ 2 ≤ 1)

/-- Model of `transformations.get_local_spheroid_mask` (the unused third radius is
omitted from the arguments).  Index `(iz, iy, ix)` corresponds to grid offset
`(iz - d, iy - wh, ix - wh)`; when `d == 1` the returned mask is the single
z-slice `mask.max(axis=0)[np.newaxis]`. -/
def get_local_spheroid_mask (zr yr : ℚ) : Mask3D :=
  let wh : ℕ := (Int.ceil yr).toNat
  let d : ℕ := (Int.ceil zr).toNat
  let base : ℤ → ℤ → ℤ → Bool := fun iz iy ix =>
    spheroid_formula zr yr (iz - d) (iy - wh) (ix - wh)
  if d = 1 then
    ⟨1, 2 * wh + 1, 2 * wh + 1,
      fun _ iy ix => base 0 iy ix || base 1 iy ix || base 2 iy ix⟩
  else
    ⟨2 * d + 1, 2 * wh + 1, 2 * wh + 1, base⟩

/-- Shape of a mask as a list, in axis order. -/
def maskShapeList (m : Mask3D) : List ℕ := [m.d0, m.d1, m.d2]

/-- Model of `np.squeeze` at the shape level: axes of extent 1 are removed. -/
def np_squeeze_shape (s : List ℕ) : List ℕ := s.filter (fun n => n ≠ 1)

/-! Section: The two roles of the spheroid mask (claim about footprint reuse)

`pipe.spot_detection` (when `spot_footprint is None`):
`zyx_radii_pxl = [val/2 for val in spots_zyx_radii_pxl]`,
`spot_footprint = get_local_spheroid_mask(zyx_radii_pxl)`, then
`spot_footprint = np.squeeze(spot_footprint)`.

`pipe._compute_obj_spots_features` aggregates over
`get_spheroids_maks(..., zyx_radii_pxl=spots_zyx_radii_pxl)`, whose
`min_size_spheroid_mask is None` branch is
`get_local_spheroid_mask(zyx_radii_pxl)` at the full radii. -/

/-- Shape of the default footprint built by `pipe.spot_detection`:
the spheroid mask of the *halved* radii, squeezed. -/
def spot_detection_footprint_shape (zr yr : ℚ) : List ℕ :=
  np_squeeze_shape (maskShapeList (get_local_spheroid_mask (zr / 2) (yr / 2)))

/-- Shape of the aggregation mask used by `pipe._compute_obj_spots_features`
via `transformations.get_spheroids_maks` when no per-spot mask overrides it:
the spheroid mask of the full radii (not squeezed). -/
def compute_obj_spots_features_mask_shape (zr yr : ℚ) : List ℕ :=
  maskShapeList (get_local_spheroid_mask zr yr)

/-! Section: `transformations.get_expand_obj_delta_tolerance`

Source: `delta_tol = np.array(spots_zyx_radii); delta_tol[1:] *= 2;
delta_tol = np.ceil(delta_tol).astype(int)`; `None` input gives `[0, 0, 0]`. -/

/-- Model of `transformations.get_expand_obj_delta_tolerance`. -/
def get_expand_obj_delta_tolerance (spots_zyx_radii : Option (List ℚ)) :
    List ℤ :=
  match spots_zyx_radii with
  | none => [0, 0, 0]
  | some radii =>
      let delta_tol := radii.enum.map
        (fun p => if 0 < p.1 then 2 * p.2 else p.2)
      delta_tol.map (fun v => Int.ceil v)

/-! Section: `transformations.reshape_spots_coords_to_3D`

Source: with `nrows, ncols = spots_coords.shape`: if `ncols == 3` return the
input; if `ncols == 2` build `np.ones((nrows, 3))` and overwrite its last two
columns with the input; otherwise raise `TypeError`. -/

/-- Overwrite the trailing columns of `base` with `row`
(`reshaped[:, 1:] = spots_coords` at the row level). -/
def set_trailing_cols (base row : List ℤ) : List ℤ :=
  base.take (base.length - row.length) ++ row

/-- Model of `transformations.reshape_spots_coords_to_3D`; the coordinate array is a
list of rows, each of length `ncols`. -/
def reshape_spots_coords_to_3D (ncols : ℕ) (rows : List (List ℤ)) :
    Except PyErr (List (List ℤ)) :=
  if ncols = 3 then Except.ok rows
  else if ncols = 2 then
    Except.ok (rows.map (fun r => set_trailing_cols [1, 1, 1] r))
  else Except.error PyErr.typeError

/-! Section: `transformations.normalise_img` and the zero-divisor policies

The module-level helpers are defined as `def _raise_norm_value_zero(self)` and
`def _warn_norm_value_zero(self)` — each takes one positional parameter —
but `normalise_img` calls them with **no** argument
(`_raise_norm_value_zero()`, `_warn_norm_value_zero()`).  In Python such a
call raises `TypeError` (missing positional argument) at the call itself,
before the callee body runs. -/

/-- The call `_raise_norm_value_zero()` as it appears in `normalise_img`:
it raises `TypeError` (missing positional argument `self`) at the call, so the
callee's intended `FloatingPointError` is never reached. -/
def call_raise_norm_value_zero_noargs : Except PyErr Unit :=
  Except.error PyErr.typeError

/-- The call `_warn_norm_value_zero()` as it appears in `normalise_img`:
it raises `TypeError` (missing positional argument `self`) at the call, so the
warning is never logged and `normalise_img` never returns on this path. -/
def call_warn_norm_value_zero_noargs : Except PyErr Unit :=
  Except.error PyErr.typeError

/-- Insert `a` into an already sorted list (ascending). -/
def insertSortedRat (a : ℚ) : List ℚ → List ℚ
  | [] => [a]
  | b :: t => if a ≤ b then a :: b :: t else b :: insertSortedRat a t

/-- Sort a list of rationals ascending (insertion sort). -/
def sortRat (l : List ℚ) : List ℚ := l.foldr insertSortedRat []

/-- Model of `np.median` on a list of rationals: middle element of the sorted list for
odd length, mean of the two middle elements for even length.  (The empty case,
where numpy yields NaN, is mapped to `0`; no claim evaluates it.) -/
def np_median (l : List ℚ) : ℚ :=
  let s := sortRat l
  let n := s.length
  if n = 0 then 0
  else if n % 2 = 1 then s.getD (n / 2) 0
  else (s.getD (n / 2 - 1) 0 + s.getD (n / 2) 0) / 2

/-- The near-zero constant `1E-15` substituted on the lenient path. -/
def near_zero_norm_value : ℚ := 1 / 10 ^ 15

/-- Model of `transformations.normalise_img` on a flattened image: `values` are the
pixels selected by `norm_mask`; `norm_value` their median (or `1` for any
other method); a zero `norm_value` triggers the strict or lenient policy,
both of which in the source call a one-parameter helper with no arguments. -/
def normalise_img (img : List ℚ) (norm_mask : List Bool)
    (method_is_median raise_if_norm_zero : Bool) :
    Except PyErr (List ℚ × ℚ) :=
  let values := ((img.zip norm_mask).filter (fun p => p.2)).map (fun p => p.1)
  let norm_value := if method_is_median then np_median values else 1
  if norm_value = 0 then
    if raise_if_norm_zero then
      call_raise_norm_value_zero_noargs.bind
        (fun _ => Except.error PyErr.floatingPointError)
    else
      call_warn_norm_value_zero_noargs.bind
        (fun _ =>
          Except.ok (img.map (fun v => v / near_zero_norm_value),
            near_zero_norm_value))
  else
    Except.ok (img.map (fun v => v / norm_value), norm_value)

/-! Section: `pipe._compute_obj_spots_features`: per-spot drop logic

The loop `for row in df_obj_spots.itertuples()` computes, for each spot, the
background values at the spot's own center z-slice
(`backgr_vals_z_spot = sharp_spot_obj_z[backgr_mask_z_spot]`); if that array
is empty the spot id is appended to `spot_ids_to_drop` and the iteration
`continue`s; after the loop, `df_obj_spots.drop(index=spot_ids_to_drop)` is
returned.  No exception is raised on this path. -/

/-- A row of the per-object candidate spot table: spot id and the
expanded-local center coordinates. -/
structure SpotRow where
  spot_id : ℕ
  z : ℤ
  y : ℤ
  x : ℤ
deriving DecidableEq, Repr

/-- Emptiness test `len(backgr_vals_z_spot) == 0`: the background mask restricted to the
z-slice `z` of the object volume (of y/x extents `ny`, `nx`) holds no voxel. -/
def backgr_empty_at_z (backgr_mask : ℤ → ℤ → ℤ → Bool) (ny nx : ℕ) (z : ℤ) :
    Bool :=
  (List.range ny).all fun yy =>
    (List.range nx).all fun xx => !(backgr_mask z yy xx)

/-- The drop logic of `pipe._compute_obj_spots_features`: accumulate the ids
of spots whose center z-slice background is empty (`spot_ids_to_drop`), then
drop those rows from the table.  Feature columns, which do not affect which
rows survive, are not modelled. -/
def _compute_obj_spots_features (spots : List SpotRow)
    (backgr_mask : ℤ → ℤ → ℤ → Bool) (ny nx : ℕ) : List SpotRow :=
  let spot_ids_to_drop := spots.foldl
    (fun acc r =>
      if backgr_empty_at_z backgr_mask ny nx r.z then acc ++ [r.spot_id]
      else acc) []
  spots.filter (fun r => !(decide (r.spot_id ∈ spot_ids_to_drop)))

/-! Section: Spec-modelled collaborators of the fixed-point loops

`spotmax.filters` and `spotmax.core` are repository modules that are not among
the provided sources; the loop bodies in `pipe.py` call into them.  The
properties of those calls that the loops rely on are modelled from the
specification. -/

/-- Modelled from the spec: `filters.filter_spots_from_features_thresholds`
(module `spotmax.filters`, not under `src/`): «drop any spot whose value for a
thresholded feature falls outside its configured `[min, max]` (either bound
may be absent, meaning unbounded on that side)».  `featureOf s k` is the value
of feature `k` for spot `s` (features are named by naturals here). -/
def filter_spots_from_features_thresholds {σ : Type} [DecidableEq σ]
    (featureOf : σ → ℕ → ℚ) (thresholds : List (ℕ × Option ℚ × Option ℚ))
    (S : Finset σ) : Finset σ :=
  S.filter (fun s => thresholds.all (fun t =>
    (match t.2.1 with | none => true | some lo => decide (lo ≤ featureOf s t.1))
    &&
    (match t.2.2 with | none => true | some hi => decide (featureOf s t.1 ≤ hi))))

/-- Modelled from the spec: `filters.filter_valid_points_min_distance`
(module `spotmax.filters`, not under `src/`): «refined fit coordinates are
checked pairwise against the minimum-distance footprint; among spots closer
than this distance only the brightest (by fitted amplitude or image intensity
at the refined coordinate) is kept».  A point survives iff no strictly
brighter point is too close to it. -/
def filter_valid_points_min_distance {σ : Type} [DecidableEq σ]
    (tooClose : σ → σ → Bool) (brightness : σ → ℚ) (S : Finset σ) : Finset σ :=
  S.filter (fun p => ∀ q ∈ S, q ≠ p → tooClose p q → brightness q ≤ brightness p)

/-! Section: The GOP fixed-point loop of `pipe.spots_calc_features_and_filter`

Source (pipe.py, lines 1319–1371):
```
i = 0
while True:
    num_spots_prev = len(df_obj_spots_gop)
    if num_spots_prev == 0:
        num_spots_filtered = 0
        break
    df_obj_spots_gop = _compute_obj_spots_features(... df_obj_spots_gop ...)
    df_obj_spots_gop = filter_spots_from_features_thresholds(df_obj_spots_gop, ...)
    num_spots_filtered = len(df_obj_spots_gop)
    if num_spots_filtered == num_spots_prev or num_spots_filtered == 0:
        break
    i += 1
```
One full iteration body (recompute features, which may drop spots with empty
background, then apply the threshold filter) is abstracted as a function
`pass_fn : Finset σ → Finset σ`; the feature recomputation may depend on the
current surviving set (the background mask changes when a spot is removed),
which is why `pass_fn` takes the whole set.  The loop state is the set of
surviving spot ids.  The `while True` is modelled with a fuel parameter; fuel
`S.card + 1` is provably never exhausted when `pass_fn` only removes spots. -/

/-- The GOP `while True` loop: state `S`, iteration counter `i` (the source's
`i`, incremented only when the loop continues), and fuel. -/
def gop_loop_aux {σ : Type} [DecidableEq σ] (pass_fn : Finset σ → Finset σ) :
    ℕ → Finset σ → ℕ → Finset σ × ℕ
  | 0, S, i => (S, i)
  | fuel + 1, S, i =>
      if S.card = 0 then (S, i)
      else
        let S' := pass_fn S
        if S'.card = S.card ∨ S'.card = 0 then (S', i)
        else gop_loop_aux pass_fn fuel S' (i + 1)

/-- The GOP filtering loop of `pipe.spots_calc_features_and_filter`, returning
the stable surviving set together with the number of `i += 1` increments. -/
def spots_calc_features_and_filter_gop_loop {σ : Type} [DecidableEq σ]
    (pass_fn : Finset σ → Finset σ) (S : Finset σ) : Finset σ × ℕ :=
  gop_loop_aux pass_fn (S.card + 1) S 0

/-! Section: The drop-peaks-too-close fixed-point loop of `pipe.spotfit`

Source (pipe.py, lines 1638–1707), with `drop_peaks_too_close=True`:
```
i = 0
while True:
    prev_num_spots = len(df_spots_obj)
    kernel.set_args(...); kernel.fit()
    valid_fit_coords = filters.filter_valid_points_min_distance(...)
    num_spots = len(valid_fit_coords)
    if num_spots == prev_num_spots: break
    if num_spots == 0:
        kernel.df_spotFIT_ID = kernel.df_spotFIT_ID[0:0]
        break
    df_spots_obj = (... rows of kernel.df_spotFIT_ID at valid_fit_coords ...)
    i += 1
```
`kernel.fit` (class `spotmax.core.SpotFIT`, not under `src/`) refits the same
spot rows — modelled from the spec («fits a sum of 3D Gaussians ... over all
spots currently assigned to that object»), it does not add or remove rows —
so one iteration maps the surviving id set `S` to a subset
`valid_fn S ⊆ S` (the min-distance filter keeps a subset of the fitted
points).  On the `num_spots == prev_num_spots` break the table keeps its
current rows (`S` itself); on the `num_spots == 0` break it is emptied. -/

/-- The spotFIT drop-peaks-too-close `while True` loop. -/
def spotfit_loop_aux {σ : Type} [DecidableEq σ] (valid_fn : Finset σ → Finset σ) :
    ℕ → Finset σ → ℕ → Finset σ × ℕ
  | 0, S, i => (S, i)
  | fuel + 1, S, i =>
      let V := valid_fn S
      if V.card = S.card then (S, i)
      else if V.card = 0 then (∅, i)
      else spotfit_loop_aux valid_fn fuel V (i + 1)

/-- The drop-peaks-too-close loop of `pipe.spotfit`, returning the stable
surviving set together with the number of `i += 1` increments. -/
def spotfit_drop_peaks_too_close_loop {σ : Type} [DecidableEq σ]
    (valid_fn : Finset σ → Finset σ) (S : Finset σ) : Finset σ × ℕ :=
  spotfit_loop_aux valid_fn (S.card + 1) S 0

/-! Section: theorems. -/

/-- Negating all three offsets leaves the spheroid equation unchanged
(only squares of the offsets occur). -/
theorem spheroid_formula_neg (zr yr : ℚ) (z y x : ℤ) :
    spheroid_formula zr yr (-z) (-y) (-x) = spheroid_formula zr yr z y x := by
  unfold spheroid_formula
  have hx : ((-x : ℤ) : ℚ) ^ 2 = ((x : ℤ) : ℚ) ^ 2 := by push_cast; ring
  have hy : ((-y : ℤ) : ℚ) ^ 2 = ((y : ℤ) : ℚ) ^ 2 := by push_cast; ring
  have hz : ((-z : ℤ) : ℚ) ^ 2 = ((z : ℤ) : ℚ) ^ 2 := by push_cast; ring
  rw [hx, hy, hz]

/-- Negating the in-plane offsets leaves the spheroid equation unchanged. -/
theorem spheroid_formula_neg_yx (zr yr : ℚ) (z y x : ℤ) :
    spheroid_formula zr yr z (-y) (-x) = spheroid_formula zr yr z y x := by
  unfold spheroid_formula
  have hx : ((-x : ℤ) : ℚ) ^ 2 = ((x : ℤ) : ℚ) ^ 2 := by push_cast; ring
  have hy : ((-y : ℤ) : ℚ) ^ 2 = ((y : ℤ) : ℚ) ^ 2 := by push_cast; ring
  rw [hx, hy]

/-- C9: the mask returned by `get_local_spheroid_mask` is point-symmetric
about its central voxel: for every radii pair and every offset
`(dz, dy, dx)` within bounds, the entry at center `+ (dz, dy, dx)` equals the
entry at center `- (dz, dy, dx)`. -/
theorem spheroid_mask_point_symmetric (zr yr : ℚ) (dz dy dx : ℤ)
    (hz : dz.natAbs ≤ ((get_local_spheroid_mask zr yr).d0 - 1) / 2)
    (hy : dy.natAbs ≤ ((get_local_spheroid_mask zr yr).d1 - 1) / 2)
    (hx : dx.natAbs ≤ ((get_local_spheroid_mask zr yr).d2 - 1) / 2) :
    (get_local_spheroid_mask zr yr).val
        ((((get_local_spheroid_mask zr yr).d0 - 1) / 2 : ℕ) + dz)
        ((((get_local_spheroid_mask zr yr).d1 - 1) / 2 : ℕ) + dy)
        ((((get_local_spheroid_mask zr yr).d2 - 1) / 2 : ℕ) + dx)
      = (get_local_spheroid_mask zr yr).val
        ((((get_local_spheroid_mask zr yr).d0 - 1) / 2 : ℕ) - dz)
        ((((get_local_spheroid_mask zr yr).d1 - 1) / 2 : ℕ) - dy)
        ((((get_local_spheroid_mask zr yr).d2 - 1) / 2 : ℕ) - dx) := by
  clear hz hy hx
  unfold get_local_spheroid_mask
  by_cases hd : (Int.ceil zr).toNat = 1
  · simp only [hd, if_pos]
    have hwh : (2 * (Int.ceil yr).toNat + 1 - 1) / 2 = (Int.ceil yr).toNat := by
      omega
    rw [hwh]
    have h1 : ∀ a b : ℤ, a + b - a = b := fun a b => by ring
    have h2 : ∀ a b : ℤ, a - b - a = -b := fun a b => by ring
    rw [h1, h1, h2, h2]
    rw [spheroid_formula_neg_yx, spheroid_formula_neg_yx,
      spheroid_formula_neg_yx]
  · simp only [hd, if_neg, if_false]
    have hwh : (2 * (Int.ceil yr).toNat + 1 - 1) / 2 = (Int.ceil yr).toNat := by
      omega
    have hdd : (2 * (Int.ceil zr).toNat + 1 - 1) / 2 = (Int.ceil zr).toNat := by
      omega
    rw [hwh, hdd]
    have h1 : ∀ a b : ℤ, a + b - a = b := fun a b => by ring
    have h2 : ∀ a b : ℤ, a - b - a = -b := fun a b => by ring
    rw [h1, h1, h1, h2, h2, h2, spheroid_formula_neg]

/-- Witness for C9 at radii `(2, 2)` and offset `(1, 1, 1)`. -/
theorem spheroid_mask_point_symmetric_witness :
    ((1 : ℤ).natAbs ≤ ((get_local_spheroid_mask 2 2).d0 - 1) / 2
      ∧ (1 : ℤ).natAbs ≤ ((get_local_spheroid_mask 2 2).d1 - 1) / 2
      ∧ (1 : ℤ).natAbs ≤ ((get_local_spheroid_mask 2 2).d2 - 1) / 2)
    ∧ (get_local_spheroid_mask 2 2).val
        ((((get_local_spheroid_mask 2 2).d0 - 1) / 2 : ℕ) + 1)
        ((((get_local_spheroid_mask 2 2).d1 - 1) / 2 : ℕ) + 1)
        ((((get_local_spheroid_mask 2 2).d2 - 1) / 2 : ℕ) + 1)
      = (get_local_spheroid_mask 2 2).val
        ((((get_local_spheroid_mask 2 2).d0 - 1) / 2 : ℕ) - 1)
        ((((get_local_spheroid_mask 2 2).d1 - 1) / 2 : ℕ) - 1)
        ((((get_local_spheroid_mask 2 2).d2 - 1) / 2 : ℕ) - 1) :=
  ⟨⟨by decide, by decide, by decide⟩,
    spheroid_mask_point_symmetric 2 2 1 1 1 (by decide) (by decide) (by decide)⟩

/-- C3 counterexample: at radii `zr = yr = 1` the claim's shape
`(2⌈zr⌉+1, 2⌈yr⌉+1, 2⌈yr⌉+1) = (3, 3, 3)` fails: because `d == 1`, the source
collapses the mask to a single z-slice, so the returned depth is `1`. -/
theorem spheroid_mask_shape_counterexample :
    ¬ ((get_local_spheroid_mask 1 1).d0 = 2 * (Int.ceil (1 : ℚ)).toNat + 1) :=
  by decide

/-- Unfolding of the spheroid equation when `zr > 0`. -/
theorem spheroid_formula_true_of_pos (zr yr : ℚ) (hz : 0 < zr) (z y x : ℤ) :
    spheroid_formula zr yr z y x = true ↔
      ((x : ℚ) ^ 2 + (y : ℚ) ^ 2) / yr ^ 2 + (z : ℚ) ^ 2 / zr ^ 2 ≤ 1 := by
  unfold spheroid_formula
  rw [if_pos hz, decide_eq_true_iff]

/-- Unfolding of the spheroid equation when `zr` is not positive. -/
theorem spheroid_formula_true_of_nonpos (zr yr : ℚ) (hz : ¬ 0 < zr) (z y x : ℤ) :
    spheroid_formula zr yr z y x = true ↔
      ((x : ℚ) ^ 2 + (y : ℚ) ^ 2) / yr ^ 2 ≤ 1 := by
  unfold spheroid_formula
  rw [if_neg hz, decide_eq_true_iff]

/-- C3 amended: `get_local_spheroid_mask` returns the claimed shape
`(2⌈zr⌉+1, 2⌈yr⌉+1, 2⌈yr⌉+1)` with the ellipsoid-equation entries only when
`zr > 1`; for `0 ≤ zr ≤ 1` (including `zr = 0`) the returned mask is a single
z-slice of shape `(1, 2⌈yr⌉+1, 2⌈yr⌉+1)` whose entries satisfy the 2-D
projection `(x²+y²)/yr² ≤ 1` of the spheroid equation. -/
theorem spheroid_mask_shape_and_values (zr yr : ℚ) (hzr : 0 ≤ zr) :
    (1 < zr →
      (get_local_spheroid_mask zr yr).d0 = 2 * (Int.ceil zr).toNat + 1
      ∧ (get_local_spheroid_mask zr yr).d1 = 2 * (Int.ceil yr).toNat + 1
      ∧ (get_local_spheroid_mask zr yr).d2 = 2 * (Int.ceil yr).toNat + 1
      ∧ ∀ iz iy ix : ℤ,
          (get_local_spheroid_mask zr yr).val iz iy ix = true ↔
            (((ix - ((Int.ceil yr).toNat : ℤ) : ℤ) : ℚ) ^ 2
              + ((iy - ((Int.ceil yr).toNat : ℤ) : ℤ) : ℚ) ^ 2) / yr ^ 2
              + ((iz - ((Int.ceil zr).toNat : ℤ) : ℤ) : ℚ) ^ 2 / zr ^ 2 ≤ 1)
    ∧ (zr ≤ 1 →
      (get_local_spheroid_mask zr yr).d0 = 1
      ∧ (get_local_spheroid_mask zr yr).d1 = 2 * (Int.ceil yr).toNat + 1
      ∧ (get_local_spheroid_mask zr yr).d2 = 2 * (Int.ceil yr).toNat + 1
      ∧ ∀ iz iy ix : ℤ,
          (get_local_spheroid_mask zr yr).val iz iy ix = true ↔
            (((ix - ((Int.ceil yr).toNat : ℤ) : ℤ) : ℚ) ^ 2
              + ((iy - ((Int.ceil yr).toNat : ℤ) : ℤ) : ℚ) ^ 2) / yr ^ 2 ≤ 1) := by
  constructor
  · intro h1
    have hz0 : 0 < zr := lt_trans zero_lt_one h1
    have hceil : (1 : ℤ) < Int.ceil zr := by
      rw [Int.lt_ceil]; exact_mod_cast h1
    have hd : (Int.ceil zr).toNat ≠ 1 := by omega
    refine ⟨?_, ?_, ?_, ?_⟩
    · simp only [get_local_spheroid_mask, if_neg hd]
    · simp only [get_local_spheroid_mask, if_neg hd]
    · simp only [get_local_spheroid_mask, if_neg hd]
    · intro iz iy ix
      simp only [get_local_spheroid_mask, if_neg hd]
      exact spheroid_formula_true_of_pos zr yr hz0 _ _ _
  · intro hle
    have hceil : Int.ceil zr ≤ 1 := by
      rw [Int.ceil_le]; exact_mod_cast hle
    have hceil0 : 0 ≤ Int.ceil zr := Int.ceil_nonneg hzr
    by_cases hd : (Int.ceil zr).toNat = 1
    · have hz0 : 0 < zr := by
        by_contra hz
        push_neg at hz
        have hzz : zr = 0 := le_antisymm hz hzr
        rw [hzz] at hd
        simp at hd
      refine ⟨?_, ?_, ?_, ?_⟩
      · simp only [get_local_spheroid_mask, if_pos hd]
      · simp only [get_local_spheroid_mask, if_pos hd]
      · simp only [get_local_spheroid_mask, if_pos hd]
      · intro iz iy ix
        simp only [get_local_spheroid_mask, if_pos hd, Bool.or_eq_true,
          spheroid_formula_true_of_pos zr yr hz0]
        have e0 : ((0 - ((Int.ceil zr).toNat : ℤ) : ℤ) : ℚ) ^ 2 = 1 := by
          rw [hd]; norm_num
        have e1 : ((1 - ((Int.ceil zr).toNat : ℤ) : ℤ) : ℚ) ^ 2 = 0 := by
          rw [hd]; norm_num
        have e2 : ((2 - ((Int.ceil zr).toNat : ℤ) : ℤ) : ℚ) ^ 2 = 1 := by
          rw [hd]; norm_num
        rw [e0, e1, e2]
        have h10 : (0 : ℚ) ≤ 1 / zr ^ 2 := by positivity
        constructor
        · rintro ((h | h) | h)
          · nlinarith [h10]
          · simpa using h
          · nlinarith [h10]
        · intro h
          refine Or.inl (Or.inr ?_)
          simpa using h
    · have hznpos : ¬ 0 < zr := by
        intro h
        have h1 : 0 < Int.ceil zr := Int.ceil_pos.mpr h
        omega
      refine ⟨?_, ?_, ?_, ?_⟩
      · simp only [get_local_spheroid_mask, if_neg hd]
        omega
      · simp only [get_local_spheroid_mask, if_neg hd]
      · simp only [get_local_spheroid_mask, if_neg hd]
      · intro iz iy ix
        simp only [get_local_spheroid_mask, if_neg hd]
        exact spheroid_formula_true_of_nonpos zr yr hznpos _ _ _

/-- Witness for the amended C3 at `zr = 2, yr = 2` (deep case) and at
`zr = 1/2, yr = 1` (collapsed single-slice case). -/
theorem spheroid_mask_shape_and_values_witness :
    (0 : ℚ) ≤ 2
    ∧ ((1 : ℚ) < 2 →
        (get_local_spheroid_mask 2 2).d0 = 2 * (Int.ceil (2 : ℚ)).toNat + 1)
    ∧ ((0 : ℚ) ≤ 1 / 2)
    ∧ ((1 / 2 : ℚ) ≤ 1 → (get_local_spheroid_mask (1 / 2) 1).d0 = 1) :=
  ⟨by norm_num,
    fun h => (((spheroid_mask_shape_and_values 2 2 (by norm_num)).1) h).1,
    by norm_num,
    fun h => (((spheroid_mask_shape_and_values (1 / 2) 1 (by norm_num)).2) h).1⟩

/-- Evaluation of `get_expand_obj_delta_tolerance` on a radii triple:
the y and x radii are doubled before `ceil` is applied. -/
theorem get_expand_obj_delta_tolerance_eval (zr yr xr : ℚ) :
    get_expand_obj_delta_tolerance (some [zr, yr, xr])
      = [Int.ceil zr, Int.ceil (2 * yr), Int.ceil (2 * xr)] := by
  simp [get_expand_obj_delta_tolerance, List.enum, List.enumFrom]

/-- C4 counterexample: at radii `(1, 6/5, 6/5)` the source computes
`ceil(2 * 6/5) = 3` for the y and x components, while the claim prescribes
`2 * ceil(6/5) = 4`; the returned tolerance is `(1, 3, 3)`, not `(1, 4, 4)`. -/
theorem expand_obj_delta_tolerance_counterexample :
    ¬ (get_expand_obj_delta_tolerance (some [1, 6 / 5, 6 / 5])
        = [Int.ceil (1 : ℚ), 2 * Int.ceil (6 / 5 : ℚ),
            2 * Int.ceil (6 / 5 : ℚ)]) := by
  rw [get_expand_obj_delta_tolerance_eval]
  have h1 : Int.ceil (2 * (6 / 5) : ℚ) = 3 := by norm_num [Int.ceil_eq_iff]
  have h2 : Int.ceil (6 / 5 : ℚ) = 2 := by norm_num [Int.ceil_eq_iff]
  rw [h1, h2]
  decide

/-- C4 amended: the expansion tolerance equals `ceil` applied *after* doubling
the y and x radii, `(⌈zr⌉, ⌈2·yr⌉, ⌈2·xr⌉)` (z keeps the base tolerance), and
a `None` radii input yields `(0, 0, 0)`. -/
theorem expand_obj_delta_tolerance_spec (zr yr xr : ℚ) :
    get_expand_obj_delta_tolerance (some [zr, yr, xr])
      = [Int.ceil zr, Int.ceil (2 * yr), Int.ceil (2 * xr)]
    ∧ get_expand_obj_delta_tolerance none = [0, 0, 0] :=
  ⟨get_expand_obj_delta_tolerance_eval zr yr xr, rfl⟩

/-- C10: `reshape_spots_coords_to_3D` returns `(N, 3)` input unchanged; for
`(N, 2)` input it prepends a `z` column of all ones (not zeros) to each row;
any other column count raises `TypeError`. -/
theorem reshape_spots_coords_to_3D_spec (rows2 rows3 rows : List (List ℤ))
    (n : ℕ) (h2 : ∀ r ∈ rows2, r.length = 2) (hn2 : n ≠ 2) (hn3 : n ≠ 3) :
    reshape_spots_coords_to_3D 3 rows3 = Except.ok rows3
    ∧ reshape_spots_coords_to_3D 2 rows2
        = Except.ok (rows2.map (fun r => 1 :: r))
    ∧ reshape_spots_coords_to_3D n rows = Except.error PyErr.typeError := by
  refine ⟨rfl, ?_, ?_⟩
  · unfold reshape_spots_coords_to_3D
    rw [if_neg (by norm_num), if_pos rfl]
    congr 1
    apply List.map_congr_left
    intro r hr
    unfold set_trailing_cols
    rw [h2 r hr]
    rfl
  · unfold reshape_spots_coords_to_3D
    rw [if_neg hn3, if_neg hn2]

/-- Witness for C10 on concrete rows and the column count 4. -/
theorem reshape_spots_coords_to_3D_spec_witness :
    (∀ r ∈ [[(5 : ℤ), 7]], r.length = 2) ∧ (4 : ℕ) ≠ 2 ∧ (4 : ℕ) ≠ 3
    ∧ (reshape_spots_coords_to_3D 3 [[(1 : ℤ), 2, 3]]
        = Except.ok [[(1 : ℤ), 2, 3]]
      ∧ reshape_spots_coords_to_3D 2 [[(5 : ℤ), 7]]
          = Except.ok ([[(5 : ℤ), 7]].map (fun r => 1 :: r))
      ∧ reshape_spots_coords_to_3D 4 [[(9 : ℤ)]]
          = Except.error PyErr.typeError) :=
  ⟨by decide, by decide, by decide,
    reshape_spots_coords_to_3D_spec [[(5 : ℤ), 7]] [[(1 : ℤ), 2, 3]]
      [[(9 : ℤ)]] 4 (by decide) (by decide) (by decide)⟩

/-- C6: on an image whose median over the normalisation mask is zero, the
strict policy (`raise_if_norm_zero=True`) raises — though a `TypeError` from
the malformed helper call, not the intended `FloatingPointError` — while the
lenient policy (`raise_if_norm_zero=False`), contrary to the claim, also
raises `TypeError` instead of substituting `1e-15`, warning, and returning:
`_warn_norm_value_zero` is defined with a `self` parameter but called with no
arguments.  A nonzero median divides the image and returns normally. -/
theorem normalise_img_zero_median_policies :
    normalise_img [0, 0, 1] [true, true, false] true true
      = Except.error PyErr.typeError
    ∧ normalise_img [0, 0, 1] [true, true, false] true false
      = Except.error PyErr.typeError
    ∧ normalise_img [2, 2, 4] [true, true, false] true false
      = Except.ok ([1, 1, 2], 2) := by
  refine ⟨?_, ?_, ?_⟩
  · simp [normalise_img, np_median, sortRat, insertSortedRat,
      call_raise_norm_value_zero_noargs, Except.bind]
  · simp [normalise_img, np_median, sortRat, insertSortedRat,
      call_warn_norm_value_zero_noargs, Except.bind]
  · simp [normalise_img, np_median, sortRat, insertSortedRat, Except.bind]
    norm_num

/-- Helper: the z-extent of the spheroid mask in both branches. -/
theorem spheroid_mask_d0_eval (zr yr : ℚ) :
    (get_local_spheroid_mask zr yr).d0 =
      if (Int.ceil zr).toNat = 1 then 1 else 2 * (Int.ceil zr).toNat + 1 := by
  by_cases h : (Int.ceil zr).toNat = 1
  · simp only [get_local_spheroid_mask, if_pos h]
  · simp only [get_local_spheroid_mask, if_neg h]

/-- Helper: the y-extent of the spheroid mask, independent of the z branch. -/
theorem spheroid_mask_d1_eval (zr yr : ℚ) :
    (get_local_spheroid_mask zr yr).d1 = 2 * (Int.ceil yr).toNat + 1 := by
  by_cases h : (Int.ceil zr).toNat = 1
  · simp only [get_local_spheroid_mask, if_pos h]
  · simp only [get_local_spheroid_mask, if_neg h]

/-- Helper: the x-extent of the spheroid mask, independent of the z branch. -/
theorem spheroid_mask_d2_eval (zr yr : ℚ) :
    (get_local_spheroid_mask zr yr).d2 = 2 * (Int.ceil yr).toNat + 1 := by
  by_cases h : (Int.ceil zr).toNat = 1
  · simp only [get_local_spheroid_mask, if_pos h]
  · simp only [get_local_spheroid_mask, if_neg h]

/-- Helper: squeezing a shape `[a, b, b]` with `b ≠ 1` drops `a` iff `a = 1`. -/
theorem np_squeeze_shape_two_tail (a b : ℕ) (hb : b ≠ 1) :
    np_squeeze_shape [a, b, b] = if a = 1 then [b, b] else [a, b, b] := by
  unfold np_squeeze_shape
  by_cases h : a = 1 <;> simp [h, hb]

/-- C7 counterexample: at radii `(2, 2, 2)` the default detection footprint of
`spot_detection` (spheroid mask of the halved radii `(1, 1)`, squeezed to
shape `[3, 3]`) differs from the aggregation mask of
`_compute_obj_spots_features` (spheroid mask of the full radii, shape
`[5, 5, 5]`). -/
theorem footprint_vs_aggregation_mask_counterexample :
    spot_detection_footprint_shape 2 2
      ≠ compute_obj_spots_features_mask_shape 2 2 := by
  have e1 : Int.ceil ((2 : ℚ) / 2) = 1 := by norm_num
  have e2 : Int.ceil ((2 : ℚ)) = 2 := by norm_num [Int.ceil_eq_iff]
  unfold spot_detection_footprint_shape compute_obj_spots_features_mask_shape
  rw [maskShapeList, maskShapeList, spheroid_mask_d0_eval, spheroid_mask_d0_eval,
    spheroid_mask_d1_eval, spheroid_mask_d1_eval, spheroid_mask_d2_eval,
    spheroid_mask_d2_eval, e1, e2]
  decide

/-- C7 amended: both roles evaluate the same geometric definition
`get_local_spheroid_mask`, but `spot_detection` builds its default footprint
from the *halved* radii and squeezes it, while the feature extractor
aggregates over the full radii; whenever `⌈yr/2⌉ < ⌈yr⌉` the two masks
already differ in shape. -/
theorem footprint_uses_halved_radii (zr yr : ℚ) (hy : 0 < yr)
    (hlt : Int.ceil (yr / 2) < Int.ceil yr) :
    spot_detection_footprint_shape zr yr
      = np_squeeze_shape (maskShapeList (get_local_spheroid_mask (zr / 2) (yr / 2)))
    ∧ spot_detection_footprint_shape zr yr
        ≠ compute_obj_spots_features_mask_shape zr yr := by
  refine ⟨rfl, ?_⟩
  intro heq
  have hceilpos : 0 < Int.ceil (yr / 2) := Int.ceil_pos.mpr (by positivity)
  have hb : 1 ≤ (Int.ceil (yr / 2)).toNat := by omega
  have hbne : 2 * (Int.ceil (yr / 2)).toNat + 1 ≠ 1 := by omega
  unfold spot_detection_footprint_shape compute_obj_spots_features_mask_shape
    at heq
  rw [maskShapeList, maskShapeList, spheroid_mask_d1_eval, spheroid_mask_d1_eval,
    spheroid_mask_d2_eval, spheroid_mask_d2_eval,
    np_squeeze_shape_two_tail _ _ hbne] at heq
  by_cases h0 : (get_local_spheroid_mask (zr / 2) (yr / 2)).d0 = 1
  · rw [if_pos h0] at heq
    simp at heq
  · rw [if_neg h0] at heq
    simp only [List.cons.injEq] at heq
    omega

/-- Helper: for a nonnegative center, one axis of the slice pair keeps the
global slice inside `[0, D]` and selects exactly as many elements as the crop
slice selects from the local axis. -/
theorem sliceAxis_ok (c : ℤ) (d D : ℕ) (hc : 0 ≤ c) :
    0 ≤ (sliceAxis c d D).1.1 ∧ (sliceAxis c d D).1.2 ≤ (D : ℤ)
    ∧ axis_shapes_match (sliceAxis c d D) d D := by
  simp only [axis_shapes_match, sliceAxis, pySliceLen, pyIdx]
  split_ifs <;> simp_all <;> omega

/-- C5 counterexample: at the (negative) center `(-5, 0, 0)`, global shape
`(10, 10, 10)` and local shape `(4, 4, 4)`, the returned z-axis slices select
segments of different lengths: the global slice `0:-3` selects 7 elements
(Python reinterprets the negative stop from the end of the axis) while the
crop slice `7:` of the length-4 local axis selects none. -/
theorem slices_local_into_global_counterexample :
    ¬ axis_shapes_match
      ((get_slices_local_into_global_3D_arr
          [-5, 0, 0] [10, 10, 10] [4, 4, 4]).headD default) 4 10 := by
  decide

/-- C5 amended: for every center with *nonnegative* components (as produced by
peak detection), every global shape and every local shape — a 2-D shape being
promoted to depth 1 — and per axis, the global slice lies in `[0, D]` and
selects exactly as many elements as the crop slice selects from the local
mask, so the two cropped views have identical shape; the function is total
(no exception is raised on boundary overlap). -/
theorem slices_local_into_global_shapes_match (cz cy cx : ℤ)
    (Dz Dy Dx dz dy dx : ℕ) (hz : 0 ≤ cz) (hy : 0 ≤ cy) (hx : 0 ≤ cx) :
    get_slices_local_into_global_3D_arr [cz, cy, cx] [Dz, Dy, Dx] [dz, dy, dx]
      = [sliceAxis cz dz Dz, sliceAxis cy dy Dy, sliceAxis cx dx Dx]
    ∧ get_slices_local_into_global_3D_arr [cz, cy, cx] [Dz, Dy, Dx] [dy, dx]
      = [sliceAxis cz 1 Dz, sliceAxis cy dy Dy, sliceAxis cx dx Dx]
    ∧ (0 ≤ (sliceAxis cz dz Dz).1.1 ∧ (sliceAxis cz dz Dz).1.2 ≤ (Dz : ℤ)
        ∧ axis_shapes_match (sliceAxis cz dz Dz) dz Dz)
    ∧ (0 ≤ (sliceAxis cy dy Dy).1.1 ∧ (sliceAxis cy dy Dy).1.2 ≤ (Dy : ℤ)
        ∧ axis_shapes_match (sliceAxis cy dy Dy) dy Dy)
    ∧ (0 ≤ (sliceAxis cx dx Dx).1.1 ∧ (sliceAxis cx dx Dx).1.2 ≤ (Dx : ℤ)
        ∧ axis_shapes_match (sliceAxis cx dx Dx) dx Dx) :=
  ⟨rfl, rfl, sliceAxis_ok cz dz Dz hz, sliceAxis_ok cy dy Dy hy,
    sliceAxis_ok cx dx Dx hx⟩

/-- Witness for the amended C5 at center `(1, 2, 3)`, global shape
`(10, 10, 10)`, local shape `(4, 4, 4)` (a boundary-overlapping placement). -/
theorem slices_local_into_global_shapes_match_witness :
    ((0 : ℤ) ≤ 1 ∧ (0 : ℤ) ≤ 2 ∧ (0 : ℤ) ≤ 3)
    ∧ (get_slices_local_into_global_3D_arr [1, 2, 3] [10, 10, 10] [4, 4, 4]
        = [sliceAxis 1 4 10, sliceAxis 2 4 10, sliceAxis 3 4 10]
      ∧ axis_shapes_match (sliceAxis 1 4 10) 4 10
      ∧ axis_shapes_match (sliceAxis 2 4 10) 4 10
      ∧ axis_shapes_match (sliceAxis 3 4 10) 4 10) := by
  have h := slices_local_into_global_shapes_match 1 2 3 10 10 10 4 4 4
    (by decide) (by decide) (by decide)
  exact ⟨⟨by decide, by decide, by decide⟩,
    h.1, h.2.2.1.2.2, h.2.2.2.1.2.2, h.2.2.2.2.2.2⟩

/-- Helper: the accumulated `spot_ids_to_drop` list is the ids of the spots
whose center z-slice background is empty, in table order. -/
theorem spot_ids_to_drop_eval (backgr_mask : ℤ → ℤ → ℤ → Bool) (ny nx : ℕ) :
    ∀ (spots : List SpotRow) (acc : List ℕ),
      spots.foldl
        (fun acc r =>
          if backgr_empty_at_z backgr_mask ny nx r.z then acc ++ [r.spot_id]
          else acc) acc
        = acc ++ (spots.filter
            (fun r => backgr_empty_at_z backgr_mask ny nx r.z)).map
              SpotRow.spot_id := by
  intro spots
  induction spots with
  | nil => intro acc; simp
  | cons r t ih =>
      intro acc
      by_cases h : backgr_empty_at_z backgr_mask ny nx r.z
      · simp [h, ih, List.filter_cons]
      · simp [h, ih, List.filter_cons]

/-- C8: `_compute_obj_spots_features` drops exactly the spots whose background
mask restricted to their own center z-slice holds no voxel, keeps and
processes every other row, and raises no exception (the embedding is a total
function into the surviving row list). -/
theorem compute_obj_spots_features_drops_empty_backgr
    (spots : List SpotRow) (backgr_mask : ℤ → ℤ → ℤ → Bool) (ny nx : ℕ)
    (hids : (spots.map SpotRow.spot_id).Nodup) :
    _compute_obj_spots_features spots backgr_mask ny nx
      = spots.filter (fun r => !(backgr_empty_at_z backgr_mask ny nx r.z))
    ∧ ∀ r ∈ spots, backgr_empty_at_z backgr_mask ny nx r.z = true →
        r ∉ _compute_obj_spots_features spots backgr_mask ny nx := by
  have hmain : _compute_obj_spots_features spots backgr_mask ny nx
      = spots.filter (fun r => !(backgr_empty_at_z backgr_mask ny nx r.z)) := by
    unfold _compute_obj_spots_features
    rw [spot_ids_to_drop_eval backgr_mask ny nx spots []]
    rw [List.nil_append]
    apply List.filter_congr
    intro r hr
    by_cases hbg : backgr_empty_at_z backgr_mask ny nx r.z
    · have hmem : r.spot_id ∈ (spots.filter
          (fun r => backgr_empty_at_z backgr_mask ny nx r.z)).map
            SpotRow.spot_id :=
        List.mem_map_of_mem _ (List.mem_filter.mpr ⟨hr, hbg⟩)
      simp [hmem, hbg]
    · have hnmem : r.spot_id ∉ (spots.filter
          (fun r => backgr_empty_at_z backgr_mask ny nx r.z)).map
            SpotRow.spot_id := by
        intro hmem
        rcases List.mem_map.mp hmem with ⟨r', hr', hid⟩
        rcases List.mem_filter.mp hr' with ⟨hr's, hbg'⟩
        have : r' = r := List.inj_on_of_nodup_map hids hr's hr hid
        rw [this] at hbg'
        exact hbg (by simpa using hbg')
      simp [hnmem, hbg]
  refine ⟨hmain, ?_⟩
  intro r hr hbg hmem
  rw [hmain] at hmem
  rcases List.mem_filter.mp hmem with ⟨-, hkeep⟩
  rw [hbg] at hkeep
  simp at hkeep

/-- Witness for C8: two spots, background only present at `z = 0`; the spot
centered at `z = 1` is dropped, the spot at `z = 0` survives. -/
theorem compute_obj_spots_features_drops_empty_backgr_witness :
    (([⟨1, 0, 0, 0⟩, ⟨2, 1, 0, 0⟩] :
        List SpotRow).map SpotRow.spot_id).Nodup
    ∧ (_compute_obj_spots_features [⟨1, 0, 0, 0⟩, ⟨2, 1, 0, 0⟩]
          (fun z _ _ => decide (z = 0)) 1 1
        = ([⟨1, 0, 0, 0⟩, ⟨2, 1, 0, 0⟩] : List SpotRow).filter
            (fun r => !(backgr_empty_at_z (fun z _ _ => decide (z = 0)) 1 1 r.z))
      ∧ ∀ r ∈ ([⟨1, 0, 0, 0⟩, ⟨2, 1, 0, 0⟩] : List SpotRow),
          backgr_empty_at_z (fun z _ _ => decide (z = 0)) 1 1 r.z = true →
            r ∉ _compute_obj_spots_features [⟨1, 0, 0, 0⟩, ⟨2, 1, 0, 0⟩]
              (fun z _ _ => decide (z = 0)) 1 1) :=
  ⟨by decide,
    compute_obj_spots_features_drops_empty_backgr
      [⟨1, 0, 0, 0⟩, ⟨2, 1, 0, 0⟩] (fun z _ _ => decide (z = 0)) 1 1
      (by decide)⟩

/-- Helper: the spec-modelled threshold filter only removes spots. -/
theorem filter_spots_from_features_thresholds_subset {σ : Type} [DecidableEq σ]
    (featureOf : σ → ℕ → ℚ) (thresholds : List (ℕ × Option ℚ × Option ℚ))
    (S : Finset σ) :
    filter_spots_from_features_thresholds featureOf thresholds S ⊆ S :=
  Finset.filter_subset _ _

/-- Helper: the spec-modelled minimum-distance filter only removes points. -/
theorem filter_valid_points_min_distance_subset {σ : Type} [DecidableEq σ]
    (tooClose : σ → σ → Bool) (brightness : σ → ℚ) (S : Finset σ) :
    filter_valid_points_min_distance tooClose brightness S ⊆ S :=
  Finset.filter_subset _ _

/-- Helper: a subset-preserving pass with unchanged cardinality is the
identity on that set. -/
theorem pass_eq_of_card_eq {σ : Type} [DecidableEq σ]
    {p : Finset σ → Finset σ} (hp : ∀ T, p T ⊆ T) {S : Finset σ}
    (h : (p S).card = S.card) : p S = S :=
  Finset.eq_of_subset_of_card_le (hp S) (le_of_eq h.symm)

/-- Helper: the state returned by the GOP loop body is a fixed point of the
filtering pass, for any sufficient fuel. -/
theorem gop_loop_aux_fix {σ : Type} [DecidableEq σ]
    (p : Finset σ → Finset σ) (hp : ∀ T, p T ⊆ T) :
    ∀ (fuel : ℕ) (S : Finset σ) (i : ℕ), S.card < fuel →
      p ((gop_loop_aux p fuel S i).1) = (gop_loop_aux p fuel S i).1 := by
  intro fuel
  induction fuel with
  | zero => intro S i h; exact absurd h (Nat.not_lt_zero _)
  | succ fuel ih =>
      intro S i h
      simp only [gop_loop_aux]
      by_cases h0 : S.card = 0
      · rw [if_pos h0]
        have hS : S = ∅ := Finset.card_eq_zero.mp h0
        rw [hS]
        exact Finset.subset_empty.mp (hp ∅)
      · rw [if_neg h0]
        by_cases hstop : (p S).card = S.card ∨ (p S).card = 0
        · rw [if_pos hstop]
          rcases hstop with heq | hz
          · have hfix : p S = S := pass_eq_of_card_eq hp heq
            show p (p S) = p S
            rw [hfix]
            exact hfix
          · have hempty : p S = ∅ := Finset.card_eq_zero.mp hz
            show p (p S) = p S
            rw [hempty]
            exact Finset.subset_empty.mp (hp ∅)
        · rw [if_neg hstop]
          push_neg at hstop
          have hlt : (p S).card < S.card :=
            lt_of_le_of_ne (Finset.card_le_card (hp S)) hstop.1
          exact ih (p S) (i + 1) (by omega)

/-- Helper: full characterisation of the GOP loop body: the result is reached
by iterating the pass, the loop stops at the first iteration whose surviving
count is unchanged or zero, and the iteration counter is bounded by the
fuel. -/
theorem gop_loop_aux_spec {σ : Type} [DecidableEq σ]
    (p : Finset σ → Finset σ) (hp : ∀ T, p T ⊆ T) :
    ∀ (fuel : ℕ) (S : Finset σ) (i : ℕ), S.card < fuel →
      ∃ k : ℕ, (gop_loop_aux p fuel S i).2 = i + k ∧ k < fuel ∧
        ((S = ∅ ∧ k = 0 ∧ (gop_loop_aux p fuel S i).1 = S)
          ∨ ((gop_loop_aux p fuel S i).1 = p^[k + 1] S
            ∧ ((p^[k + 1] S).card = (p^[k] S).card ∨ (p^[k + 1] S).card = 0)
            ∧ ∀ j, j < k →
                (p^[j + 1] S).card ≠ (p^[j] S).card
                ∧ (p^[j + 1] S).card ≠ 0)) := by
  intro fuel
  induction fuel with
  | zero => intro S i h; exact absurd h (Nat.not_lt_zero _)
  | succ fuel ih =>
      intro S i h
      simp only [gop_loop_aux]
      by_cases h0 : S.card = 0
      · rw [if_pos h0]
        exact ⟨0, by simp, by omega,
          Or.inl ⟨Finset.card_eq_zero.mp h0, rfl, rfl⟩⟩
      · rw [if_neg h0]
        by_cases hstop : (p S).card = S.card ∨ (p S).card = 0
        · rw [if_pos hstop]
          refine ⟨0, by simp, by omega, Or.inr ⟨?_, ?_, ?_⟩⟩
          · simp
          · simpa using hstop
          · intro j hj; exact absurd hj (Nat.not_lt_zero j)
        · rw [if_neg hstop]
          push_neg at hstop
          have hlt : (p S).card < S.card :=
            lt_of_le_of_ne (Finset.card_le_card (hp S)) hstop.1
          obtain ⟨k', hn, hkf, hcase⟩ := ih (p S) (i + 1) (by omega)
          have e : ∀ m, p^[m] (p S) = p^[m + 1] S := fun m =>
            (Function.iterate_succ_apply p m S).symm
          refine ⟨k' + 1, by rw [hn]; omega, by omega, ?_⟩
          rcases hcase with ⟨hemp, -, -⟩ | ⟨hT, hst, hex⟩
          · exact absurd (by rw [hemp]; simp : (p S).card = 0) hstop.2
          · refine Or.inr ⟨?_, ?_, ?_⟩
            · rw [hT, e]
            · rw [e, e] at hst
              exact hst
            · intro j hj
              cases j with
              | zero =>
                  constructor
                  · simpa using hstop.1
                  · simpa using hstop.2
              | succ j' =>
                  have hex' := hex j' (by omega)
                  rw [e, e] at hex'
                  exact hex'

/-- Helper: the state returned by the spotFIT drop-peaks-too-close loop body
is a fixed point of the validity filter, for any sufficient fuel. -/
theorem spotfit_loop_aux_fix {σ : Type} [DecidableEq σ]
    (p : Finset σ → Finset σ) (hp : ∀ T, p T ⊆ T) :
    ∀ (fuel : ℕ) (S : Finset σ) (i : ℕ), S.card < fuel →
      p ((spotfit_loop_aux p fuel S i).1) = (spotfit_loop_aux p fuel S i).1 := by
  intro fuel
  induction fuel with
  | zero => intro S i h; exact absurd h (Nat.not_lt_zero _)
  | succ fuel ih =>
      intro S i h
      simp only [spotfit_loop_aux]
      by_cases heq : (p S).card = S.card
      · rw [if_pos heq]
        exact pass_eq_of_card_eq hp heq
      · rw [if_neg heq]
        by_cases hz : (p S).card = 0
        · rw [if_pos hz]
          exact Finset.subset_empty.mp (hp ∅)
        · rw [if_neg hz]
          have hlt : (p S).card < S.card :=
            lt_of_le_of_ne (Finset.card_le_card (hp S)) heq
          exact ih (p S) (i + 1) (by omega)

/-- Helper: full characterisation of the spotFIT drop-peaks-too-close loop
body, analogous to `gop_loop_aux_spec`: on the unchanged-count break the
table keeps its rows, on the zero break it is emptied. -/
theorem spotfit_loop_aux_spec {σ : Type} [DecidableEq σ]
    (p : Finset σ → Finset σ) (hp : ∀ T, p T ⊆ T) :
    ∀ (fuel : ℕ) (S : Finset σ) (i : ℕ), S.card < fuel →
      ∃ k : ℕ, (spotfit_loop_aux p fuel S i).2 = i + k ∧ k < fuel ∧
        (((p (p^[k] S)).card = (p^[k] S).card
            ∧ (spotfit_loop_aux p fuel S i).1 = p^[k] S)
          ∨ ((p (p^[k] S)).card = 0 ∧ (spotfit_loop_aux p fuel S i).1 = ∅))
        ∧ ∀ j, j < k →
            (p^[j + 1] S).card ≠ (p^[j] S).card ∧ (p^[j + 1] S).card ≠ 0 := by
  intro fuel
  induction fuel with
  | zero => intro S i h; exact absurd h (Nat.not_lt_zero _)
  | succ fuel ih =>
      intro S i h
      simp only [spotfit_loop_aux]
      by_cases heq : (p S).card = S.card
      · rw [if_pos heq]
        refine ⟨0, by simp, by omega, Or.inl ⟨by simpa using heq, by simp⟩, ?_⟩
        intro j hj; exact absurd hj (Nat.not_lt_zero j)
      · rw [if_neg heq]
        by_cases hz : (p S).card = 0
        · rw [if_pos hz]
          refine ⟨0, by simp, by omega, Or.inr ⟨by simpa using hz, rfl⟩, ?_⟩
          intro j hj; exact absurd hj (Nat.not_lt_zero j)
        · rw [if_neg hz]
          have hlt : (p S).card < S.card :=
            lt_of_le_of_ne (Finset.card_le_card (hp S)) heq
          obtain ⟨k', hn, hkf, hcase, hex⟩ := ih (p S) (i + 1) (by omega)
          have e : ∀ m, p^[m] (p S) = p^[m + 1] S := fun m =>
            (Function.iterate_succ_apply p m S).symm
          refine ⟨k' + 1, by rw [hn]; omega, by omega, ?_, ?_⟩
          · rcases hcase with ⟨hc, hT⟩ | ⟨hc, hT⟩
            · rw [e] at hc
              rw [e] at hT
              exact Or.inl ⟨hc, hT⟩
            · rw [e] at hc
              exact Or.inr ⟨hc, hT⟩
          · intro j hj
            cases j with
            | zero =>
                constructor
                · simpa using heq
                · simpa using hz
            | succ j' =>
                have hex' := hex j' (by omega)
                rw [e, e] at hex'
                exact hex'

/-- C1: for both fixed-point loops — the GOP loop of
`spots_calc_features_and_filter` and the drop-peaks-too-close loop of
`spotfit` — with per-iteration passes that only remove spots: the per-object
spot count is monotonically non-increasing from one iteration to the next;
the loop terminates, with an iteration counter bounded by the starting spot
count; the final state is stable under one more pass; and the loop stops
exactly at the first iteration whose surviving count is unchanged from the
previous iteration or zero (no earlier iteration satisfies either
condition). -/
theorem gop_and_spotfit_loops_monotone_terminate_stable
    {σ : Type} [DecidableEq σ] (pass_fn valid_fn : Finset σ → Finset σ)
    (hpass : ∀ T, pass_fn T ⊆ T) (hvalid : ∀ T, valid_fn T ⊆ T)
    (S₁ S₂ : Finset σ) :
    (∀ U : Finset σ, (pass_fn U).card ≤ U.card)
    ∧ (∀ U : Finset σ, (valid_fn U).card ≤ U.card)
    ∧ (spots_calc_features_and_filter_gop_loop pass_fn S₁).2 ≤ S₁.card
    ∧ pass_fn (spots_calc_features_and_filter_gop_loop pass_fn S₁).1
        = (spots_calc_features_and_filter_gop_loop pass_fn S₁).1
    ∧ (∃ k ≤ S₁.card,
        (S₁ = ∅ ∧ k = 0
            ∧ (spots_calc_features_and_filter_gop_loop pass_fn S₁).1 = S₁)
        ∨ ((spots_calc_features_and_filter_gop_loop pass_fn S₁).1
              = pass_fn^[k + 1] S₁
          ∧ ((pass_fn^[k + 1] S₁).card = (pass_fn^[k] S₁).card
              ∨ (pass_fn^[k + 1] S₁).card = 0)
          ∧ ∀ j, j < k →
              (pass_fn^[j + 1] S₁).card ≠ (pass_fn^[j] S₁).card
              ∧ (pass_fn^[j + 1] S₁).card ≠ 0))
    ∧ (spotfit_drop_peaks_too_close_loop valid_fn S₂).2 ≤ S₂.card
    ∧ valid_fn (spotfit_drop_peaks_too_close_loop valid_fn S₂).1
        = (spotfit_drop_peaks_too_close_loop valid_fn S₂).1
    ∧ (∃ k ≤ S₂.card,
        (((valid_fn (valid_fn^[k] S₂)).card = (valid_fn^[k] S₂).card
            ∧ (spotfit_drop_peaks_too_close_loop valid_fn S₂).1
                = valid_fn^[k] S₂)
          ∨ ((valid_fn (valid_fn^[k] S₂)).card = 0
            ∧ (spotfit_drop_peaks_too_close_loop valid_fn S₂).1 = ∅))
        ∧ ∀ j, j < k →
            (valid_fn^[j + 1] S₂).card ≠ (valid_fn^[j] S₂).card
            ∧ (valid_fn^[j + 1] S₂).card ≠ 0) := by
  obtain ⟨k₁, hn₁, hk₁, hcase₁⟩ :=
    gop_loop_aux_spec pass_fn hpass (S₁.card + 1) S₁ 0 (Nat.lt_succ_self _)
  obtain ⟨k₂, hn₂, hk₂, hcase₂, hex₂⟩ :=
    spotfit_loop_aux_spec valid_fn hvalid (S₂.card + 1) S₂ 0 (Nat.lt_succ_self _)
  refine ⟨fun U => Finset.card_le_card (hpass U),
    fun U => Finset.card_le_card (hvalid U), ?_,
    gop_loop_aux_fix pass_fn hpass (S₁.card + 1) S₁ 0 (Nat.lt_succ_self _),
    ⟨k₁, by omega, hcase₁⟩, ?_,
    spotfit_loop_aux_fix valid_fn hvalid (S₂.card + 1) S₂ 0 (Nat.lt_succ_self _),
    ⟨k₂, by omega, hcase₂, hex₂⟩⟩
  · show (gop_loop_aux pass_fn (S₁.card + 1) S₁ 0).2 ≤ S₁.card
    rw [hn₁]
    omega
  · show (spotfit_loop_aux valid_fn (S₂.card + 1) S₂ 0).2 ≤ S₂.card
    rw [hn₂]
    omega

/-- Witness for C1: concrete subset-preserving passes (the spec-modelled
threshold filter keeping values in `[0, 1]` and the spec-modelled
minimum-distance filter) on the starting sets `{0, 1, 2}` and `{1, 2}`. -/
theorem gop_and_spotfit_loops_witness :
    (∀ T : Finset ℕ,
      filter_spots_from_features_thresholds (fun (s : ℕ) _ => (s : ℚ))
        [(0, some 0, some 1)] T ⊆ T)
    ∧ (∀ T : Finset ℕ,
      filter_valid_points_min_distance (fun _ _ => true) (fun (s : ℕ) => (s : ℚ)) T
        ⊆ T)
    ∧ ((spots_calc_features_and_filter_gop_loop
          (fun S => filter_spots_from_features_thresholds (fun (s : ℕ) _ => (s : ℚ))
            [(0, some 0, some 1)] S) ({0, 1, 2} : Finset ℕ)).2
        ≤ ({0, 1, 2} : Finset ℕ).card
      ∧ (spotfit_drop_peaks_too_close_loop
          (fun S => filter_valid_points_min_distance (fun _ _ => true)
            (fun (s : ℕ) => (s : ℚ)) S) ({1, 2} : Finset ℕ)).2
        ≤ ({1, 2} : Finset ℕ).card) :=
  ⟨fun T => filter_spots_from_features_thresholds_subset _ _ T,
    fun T => filter_valid_points_min_distance_subset _ _ T,
    (gop_and_spotfit_loops_monotone_terminate_stable
      (fun S => filter_spots_from_features_thresholds (fun (s : ℕ) _ => (s : ℚ))
        [(0, some 0, some 1)] S)
      (fun S => filter_valid_points_min_distance (fun _ _ => true)
        (fun (s : ℕ) => (s : ℚ)) S)
      (fun T => filter_spots_from_features_thresholds_subset _ _ T)
      (fun T => filter_valid_points_min_distance_subset _ _ T)
      ({0, 1, 2} : Finset ℕ) ({1, 2} : Finset ℕ)).2.2.1,
    (gop_and_spotfit_loops_monotone_terminate_stable
      (fun S => filter_spots_from_features_thresholds (fun (s : ℕ) _ => (s : ℚ))
        [(0, some 0, some 1)] S)
      (fun S => filter_valid_points_min_distance (fun _ _ => true)
        (fun (s : ℕ) => (s : ℚ)) S)
      (fun T => filter_spots_from_features_thresholds_subset _ _ T)
      (fun T => filter_valid_points_min_distance_subset _ _ T)
      ({0, 1, 2} : Finset ℕ) ({1, 2} : Finset ℕ)).2.2.2.2.2.1⟩

/-- C2: the GOP filter is idempotent at its fixed point: the stable output of
the loop is unchanged by one more recompute-and-filter pass, and re-running
the whole loop on its own stable output returns that same set after zero
further iterations. -/
theorem gop_filter_idempotent_at_fixed_point {σ : Type} [DecidableEq σ]
    (pass_fn : Finset σ → Finset σ) (hpass : ∀ T, pass_fn T ⊆ T)
    (S : Finset σ) :
    pass_fn (spots_calc_features_and_filter_gop_loop pass_fn S).1
      = (spots_calc_features_and_filter_gop_loop pass_fn S).1
    ∧ spots_calc_features_and_filter_gop_loop pass_fn
        (spots_calc_features_and_filter_gop_loop pass_fn S).1
      = ((spots_calc_features_and_filter_gop_loop pass_fn S).1, 0) := by
  have hfix :=
    gop_loop_aux_fix pass_fn hpass (S.card + 1) S 0 (Nat.lt_succ_self _)
  refine ⟨hfix, ?_⟩
  set T := (spots_calc_features_and_filter_gop_loop pass_fn S).1 with hT
  by_cases h0 : T.card = 0
  · simp [spots_calc_features_and_filter_gop_loop, gop_loop_aux, h0]
  · simp only [spots_calc_features_and_filter_gop_loop, gop_loop_aux]
    rw [if_neg h0]
    have hfixT : pass_fn T = T := hfix
    rw [if_pos (Or.inl (by rw [hfixT]))]
    rw [hfixT]

/-- Witness for C2 with the concrete threshold-filter pass on `{0, 1, 2}`. -/
theorem gop_filter_idempotent_witness :
    (∀ T : Finset ℕ,
      filter_spots_from_features_thresholds (fun (s : ℕ) _ => (s : ℚ))
        [(0, some 0, some 1)] T ⊆ T)
    ∧ (spots_calc_features_and_filter_gop_loop
        (fun S => filter_spots_from_features_thresholds (fun (s : ℕ) _ => (s : ℚ))
          [(0, some 0, some 1)] S)
        ((spots_calc_features_and_filter_gop_loop
          (fun S => filter_spots_from_features_thresholds (fun (s : ℕ) _ => (s : ℚ))
            [(0, some 0, some 1)] S) ({0, 1, 2} : Finset ℕ)).1)
      = ((spots_calc_features_and_filter_gop_loop
          (fun S => filter_spots_from_features_thresholds (fun (s : ℕ) _ => (s : ℚ))
            [(0, some 0, some 1)] S) ({0, 1, 2} : Finset ℕ)).1, 0)) :=
  ⟨fun T => filter_spots_from_features_thresholds_subset _ _ T,
    (gop_filter_idempotent_at_fixed_point
      (fun S => filter_spots_from_features_thresholds (fun (s : ℕ) _ => (s : ℚ))
        [(0, some 0, some 1)] S)
      (fun T => filter_spots_from_features_thresholds_subset _ _ T)
      ({0, 1, 2} : Finset ℕ)).2⟩

/-- Witness for the amended C7 at radii `(2, 2)`. -/
theorem footprint_uses_halved_radii_witness :
    ((0 : ℚ) < 2 ∧ Int.ceil ((2 : ℚ) / 2) < Int.ceil (2 : ℚ))
    ∧ spot_detection_footprint_shape 2 2
        ≠ compute_obj_spots_features_mask_shape 2 2 := by
  have e1 : Int.ceil ((2 : ℚ) / 2) = 1 := by norm_num
  have e2 : Int.ceil ((2 : ℚ)) = 2 := by norm_num [Int.ceil_eq_iff]
  have hlt : Int.ceil ((2 : ℚ) / 2) < Int.ceil (2 : ℚ) := by
    rw [e1, e2]; decide
  exact ⟨⟨by norm_num, hlt⟩,
    (footprint_uses_halved_radii 2 2 (by norm_num) hlt).2⟩
